import Mathlib

/-!
# Verification of the Earn Agent operation-execution pipeline

Shallow embedding of `src/main.ts` (stakekit/earn-agent-demo): the
operation-intake parser (`parseOpFromCodeBlock`), the step executor
(`runScenarioStep`), the transaction lifecycle driver
(`processTransactions`), the account-state refresh
(`refreshEarnAgentData` and helpers), and the busy-flag scheduler gate
in `main`.

External effects (HTTP calls to the aggregator, wallet signing, sleeps)
are modelled as an explicit event trace; the responses the environment
would return are supplied by explicit environment structures, so every
function is an executable Lean definition from environment to
(trace, result).
-/

namespace EarnAgent

/-! ## Numeric strings

The source compares amounts with JavaScript `parseFloat(s) <= 0` /
`parseFloat(s) > 0`.  We model `parseFloat` on the data model's decimal
strings: optional sign, integer digits, optional fractional digits;
`none` models `NaN` (and JavaScript `NaN <= 0` / `NaN > 0` are both
false, which the boolean wrappers below reproduce). -/

def digitsVal (l : List Char) : Nat :=
  l.foldl (fun a c => a * 10 + (c.toNat - 48)) 0

/-- JavaScript's whitespace trimming (`String.prototype.trim`, and the
leading skip of `parseFloat`), on the ASCII whitespace characters. -/
def isTrimWs (c : Char) : Bool :=
  c = ' ' || c = '\n' || c = '\t' || c = '\r' || c = Char.ofNat 12 || c = Char.ofNat 11

def strTrim (s : String) : String :=
  ⟨((s.toList.dropWhile isTrimWs).reverse.dropWhile isTrimWs).reverse⟩

def parseFloat (s : String) : Option ℚ :=
  let cs := (strTrim s).toList
  let signed : Bool × List Char :=
    match cs with
    | '-' :: r => (true, r)
    | '+' :: r => (false, r)
    | _ => (false, cs)
  let intDigits := signed.2.takeWhile Char.isDigit
  let rest := signed.2.dropWhile Char.isDigit
  let fracDigits : List Char :=
    match rest with
    | '.' :: r => r.takeWhile Char.isDigit
    | _ => []
  if intDigits = [] ∧ fracDigits = [] then none
  else
    let mag : ℚ :=
      mkRat (digitsVal intDigits * 10 ^ fracDigits.length + digitsVal fracDigits)
        (10 ^ fracDigits.length)
    some (if signed.1 then -mag else mag)

/-- `parseFloat(s) <= 0` in JavaScript (false when `NaN`). -/
def floatLeZero (s : String) : Bool :=
  match parseFloat s with
  | none => false
  | some q => decide (q ≤ 0)

/-- `parseFloat(s) > 0` in JavaScript (false when `NaN`). -/
def floatPos (s : String) : Bool :=
  match parseFloat s with
  | none => false
  | some q => decide (0 < q)

/-! ## JSON values and `JSON.parse`

`parseOpFromCodeBlock` runs `JSON.parse` on the fenced block and then
inspects the result with `Object.keys(...).length`, `.steps` and
`Array.isArray`.  We embed a JSON value type and a fuel-based
recursive-descent parser for the JSON grammar (numbers are kept as
their source token; their numeric value is never consulted). -/

inductive JSON where
  | null : JSON
  | bool (b : Bool) : JSON
  | num (tok : String) : JSON
  | str (s : String) : JSON
  | arr (elems : List JSON) : JSON
  | obj (fields : List (String × JSON)) : JSON
deriving Repr, BEq

def lbrace : Char := Char.ofNat 123

def rbrace : Char := Char.ofNat 125

def isJsonWs (c : Char) : Bool :=
  c = ' ' || c = '\n' || c = '\t' || c = '\r'

def skipWs (cs : List Char) : List Char :=
  cs.dropWhile isJsonWs

def hexVal (c : Char) : Option Nat :=
  if '0' ≤ c ∧ c ≤ '9' then some (c.toNat - 48)
  else if 'a' ≤ c ∧ c ≤ 'f' then some (c.toNat - 87)
  else if 'A' ≤ c ∧ c ≤ 'F' then some (c.toNat - 55)
  else none

/-- Parse the body of a JSON string (opening quote already consumed). -/
def parseStrAux : Nat → List Char → List Char → Option (String × List Char)
  | 0, _, _ => none
  | f + 1, acc, cs =>
    match cs with
    | [] => none
    | c :: rest =>
      if c = '"' then some (⟨acc.reverse⟩, rest)
      else if c = '\\' then
        match rest with
        | [] => none
        | e :: r2 =>
          if e = '"' ∨ e = '\\' ∨ e = '/' then parseStrAux f (e :: acc) r2
          else if e = 'n' then parseStrAux f ('\n' :: acc) r2
          else if e = 't' then parseStrAux f ('\t' :: acc) r2
          else if e = 'r' then parseStrAux f ('\r' :: acc) r2
          else if e = 'b' then parseStrAux f (Char.ofNat 8 :: acc) r2
          else if e = 'f' then parseStrAux f (Char.ofNat 12 :: acc) r2
          else if e = 'u' then
            match r2 with
            | a :: b :: c2 :: d :: r3 =>
              match hexVal a, hexVal b, hexVal c2, hexVal d with
              | some ha, some hb, some hc, some hd =>
                parseStrAux f (Char.ofNat (((ha * 16 + hb) * 16 + hc) * 16 + hd) :: acc) r3
              | _, _, _, _ => none
            | _ => none
          else none
      else parseStrAux f (c :: acc) rest

def numChar (c : Char) : Bool :=
  c.isDigit || c = '-' || c = '+' || c = '.' || c = 'e' || c = 'E'

def checkExp (l : List Char) : Bool :=
  match l with
  | [] => true
  | c :: r =>
    if c = 'e' ∨ c = 'E' then
      let r2 : List Char :=
        match r with
        | '+' :: r3 => r3
        | '-' :: r3 => r3
        | _ => r
      decide (r2 ≠ []) && r2.all Char.isDigit
    else false

def checkFrac (l : List Char) : Bool :=
  match l with
  | '.' :: r =>
    let ds := r.takeWhile Char.isDigit
    decide (ds ≠ []) && checkExp (r.dropWhile Char.isDigit)
  | l' => checkExp l'

def validNumTok (tok : List Char) : Bool :=
  let t : List Char :=
    match tok with
    | '-' :: r => r
    | _ => tok
  match t with
  | [] => false
  | '0' :: r => checkFrac r
  | c :: _ => c.isDigit && checkFrac (t.dropWhile Char.isDigit)

def parseNum (cs : List Char) : Option (JSON × List Char) :=
  let tok := cs.takeWhile numChar
  let rest := cs.dropWhile numChar
  if validNumTok tok then some (.num ⟨tok⟩, rest) else none

/-- Insert a key/value into an object's field list with `JSON.parse`
duplicate-key semantics: last value wins, first insertion order kept. -/
def upsert (acc : List (String × JSON)) (k : String) (v : JSON) : List (String × JSON) :=
  if acc.any (fun p => p.1 = k) then
    acc.map (fun p => if p.1 = k then (k, v) else p)
  else acc ++ [(k, v)]

mutual

def parseVal : Nat → List Char → Option (JSON × List Char)
  | 0, _ => none
  | f + 1, cs =>
    match skipWs cs with
    | [] => none
    | 'n' :: 'u' :: 'l' :: 'l' :: r => some (.null, r)
    | 't' :: 'r' :: 'u' :: 'e' :: r => some (.bool true, r)
    | 'f' :: 'a' :: 'l' :: 's' :: 'e' :: r => some (.bool false, r)
    | c :: r =>
      if c = '"' then (parseStrAux f [] r).map (fun p => (.str p.1, p.2))
      else if c = '[' then
        match skipWs r with
        | ']' :: r2 => some (.arr [], r2)
        | _ => parseElems f (skipWs r) []
      else if c = lbrace then
        match skipWs r with
        | c2 :: r2 => if c2 = rbrace then some (.obj [], r2) else parseFields f (skipWs r) []
        | [] => none
      else if c = '-' ∨ c.isDigit then parseNum (c :: r)
      else none

def parseElems : Nat → List Char → List JSON → Option (JSON × List Char)
  | 0, _, _ => none
  | f + 1, cs, acc =>
    match parseVal f cs with
    | none => none
    | some (v, rest) =>
      match skipWs rest with
      | [] => none
      | c :: r2 =>
        if c = ',' then parseElems f r2 (v :: acc)
        else if c = ']' then some (.arr (v :: acc).reverse, r2)
        else none

def parseFields : Nat → List Char → List (String × JSON) → Option (JSON × List Char)
  | 0, _, _ => none
  | f + 1, cs, acc =>
    match skipWs cs with
    | [] => none
    | c :: r =>
      if c = '"' then
        match parseStrAux f [] r with
        | none => none
        | some (key, r2) =>
          match skipWs r2 with
          | [] => none
          | c2 :: r3 =>
            if c2 = ':' then
              match parseVal f r3 with
              | none => none
              | some (v, r4) =>
                let acc2 := upsert acc key v
                match skipWs r4 with
                | [] => none
                | c3 :: r5 =>
                  if c3 = ',' then parseFields f r5 acc2
                  else if c3 = rbrace then some (.obj acc2, r5)
                  else none
            else none
      else none

end

/-- `JSON.parse` on a whole string: one value, only whitespace after. -/
def jsonParse (s : String) : Option JSON :=
  match parseVal (4 * s.length + 8) s.toList with
  | some (v, rest) => if skipWs rest = [] then some v else none
  | none => none

/-- `Object.keys(v).length` in JavaScript: throws on `null`
(modelled as `none`, which the caller's `catch` turns into a parse
failure), index keys for strings and arrays, no keys for other
primitives. -/
def jsKeysLength : JSON → Option Nat
  | .null => none
  | .obj fs => some fs.length
  | .arr l => some l.length
  | .str s => some s.length
  | .bool _ => some 0
  | .num _ => some 0

/-- JavaScript property access `v.k` for a parsed JSON value: defined
only on objects (arrays/strings have no such named property for the
keys the source reads). -/
def jsGetField (v : JSON) (k : String) : Option JSON :=
  match v with
  | .obj fs => (fs.find? (fun p => p.1 = k)).map (fun p => p.2)
  | _ => none

/-! ## Operation intake: `parseOpFromCodeBlock`

The source extracts the fenced block with the regex
  /```json([\s\S]*?)```/
(leftmost match, lazy body: the body runs to the first closing fence
after the first "```json"), `JSON.parse`s the trimmed body, returns
`null` for an empty object ("no improvements"), rejects objects whose
`steps` is not an array, and returns the object otherwise.  `null`
returns are distinguished here by constructor, mirroring the source's
distinct code paths (distinct log lines). -/

def fenceOpen : List Char := "```json".toList

def fenceClose : List Char := "```".toList

/-- Index of the first occurrence of `pat` in `cs`. -/
def findSub (pat : List Char) : List Char → Option Nat
  | [] => if List.isPrefixOf pat ([] : List Char) then some 0 else none
  | c :: rest =>
    if List.isPrefixOf pat (c :: rest) then some 0
    else (findSub pat rest).map (· + 1)

/-- The regex match: body of the first fenced block (group 1) together
with the text after the closing fence. -/
def extractBlockAndRest (s : String) : Option (String × String) :=
  let cs := s.toList
  match findSub fenceOpen cs with
  | none => none
  | some i =>
    let after := cs.drop (i + 7)
    match findSub fenceClose after with
    | none => none
    | some j => some (⟨after.take j⟩, ⟨after.drop (j + 3)⟩)

def extractJsonBlock (s : String) : Option String :=
  (extractBlockAndRest s).map (fun p => p.1)

inductive ParseOutcome where
  | noBlock : ParseOutcome
  | parseError : ParseOutcome
  | emptyObject : ParseOutcome
  | missingSteps : ParseOutcome
  | ok (steps : List JSON) : ParseOutcome
deriving Repr, BEq

/-- The body of `parseOpFromCodeBlock`'s `try` block, on the extracted
fence body: `JSON.parse(match[1].trim())`, the `Object.keys` emptiness
check, and the `Array.isArray(opsObj.steps)` check. -/
def parseBlock (block : String) : ParseOutcome :=
  match jsonParse (strTrim block) with
  | none => .parseError
  | some v =>
    match jsKeysLength v with
    | none => .parseError
    | some 0 => .emptyObject
    | some (_ + 1) =>
      match jsGetField v "steps" with
      | some (.arr l) => .ok l
      | _ => .missingSteps

def parseOpFromCodeBlock (aiText : String) : ParseOutcome :=
  match extractJsonBlock aiText with
  | none => .noBlock
  | some b => parseBlock b

/-- A step as declared by the source's `EarnAgentOp` interface. -/
structure EarnStep where
  type : String
  integrationId : String
  amount : Option String
deriving Repr, DecidableEq

/-- Reading a parsed steps-array element at the fields the source
accesses (`step.type`, `step.integrationId`, `step.amount`); non-string
values behave as absent for the string comparisons the source makes. -/
def jsonToStep (j : JSON) : EarnStep :=
  { type :=
      match jsGetField j "type" with
      | some (.str s) => s
      | _ => "undefined"
    integrationId :=
      match jsGetField j "integrationId" with
      | some (.str s) => s
      | _ => "undefined"
    amount :=
      match jsGetField j "amount" with
      | some (.str s) => some s
      | _ => none }

/-! ## Event traces

Every aggregator call, signer call and fixed delay the pipeline makes
is recorded as an event.  Only action-session creation, transaction
construction and transaction submission write state on the aggregator;
balance/detail/status queries are reads. -/

inductive ApiCall where
  | getYieldDetail (integrationId : String) : ApiCall
  | postYieldBalances (integrationId : String) : ApiCall
  | postTokenBalances (tokenAddress : Option String) : ApiCall
  | postAction (endpoint : String) (integrationId : String) (amount : String) : ApiCall
  | patchConstruct (txId : String) : ApiCall
  | postSubmit (txId : String) : ApiCall
  | getStatus (txId : String) : ApiCall
deriving Repr, DecidableEq

inductive Ev where
  | api (c : ApiCall) : Ev
  | sleep (ms : Nat) : Ev
  | sign (txId : String) : Ev
  | refresh : Ev
deriving Repr, DecidableEq

/-- Aggregator write calls: action-session creation, construction,
submission.  Balance, detail and status queries are reads. -/
def isWrite : Ev → Bool
  | .api (.postAction _ _ _) => true
  | .api (.patchConstruct _) => true
  | .api (.postSubmit _) => true
  | _ => false

def isStatusQuery : Ev → Bool
  | .api (.getStatus _) => true
  | _ => false

def isConstructCall : Ev → Bool
  | .api (.patchConstruct _) => true
  | _ => false

def isBalanceOrDetailQuery : Ev → Bool
  | .api (.getYieldDetail _) => true
  | .api (.postYieldBalances _) => true
  | .api (.postTokenBalances _) => true
  | _ => false

/-! ## Transaction lifecycle driver: `processTransactions`

The environment fixes, per transaction id, whether each construction
attempt succeeds, whether signing succeeds, whether submission
succeeds, and the sequence of status-query responses (`none` models the
status GET erroring, which the source's `.catch(() => null)` turns into
a `null` status). -/

structure Tx where
  id : String
  status : String
  type : String
deriving Repr, DecidableEq

structure DriverEnv where
  constructOk : String → Nat → Bool
  signOk : String → Bool
  submitOk : String → Bool
  statusAt : String → Nat → Option String

inductive TxResult where
  | skipped : TxResult
  | abandoned : TxResult
  | confirmed : TxResult
  | failed : TxResult
  | unknown : TxResult
deriving Repr, DecidableEq

inductive DriveErr where
  | signFail (txId : String) : DriveErr
  | submitFail (txId : String) : DriveErr
deriving Repr, DecidableEq

/-- The construction retry loop `for (let i = 0; i < 3; i++)`: attempt
`i`, and on failure sleep 1000 ms and try again while attempts remain.
Returns the trace and whether a construction succeeded. -/
def constructLoop (ok : Nat → Bool) (txId : String) : Nat → Nat → List Ev × Bool
  | _, 0 => ([], false)
  | i, n + 1 =>
    if ok i then ([Ev.api (.patchConstruct txId)], true)
    else
      let rest := constructLoop ok txId (i + 1) n
      (Ev.api (.patchConstruct txId) :: Ev.sleep 1000 :: rest.1, rest.2)

/-- The status-polling loop `while (true)`: query status; a query error
ends the transaction as `unknown`; `CONFIRMED`/`FAILED` end it; any
other status sleeps 2000 ms and polls again.  `fuel` bounds the
unrolling; `none` means the loop has not terminated within `fuel`
queries. -/
def pollLoop (statusAt : Nat → Option String) (txId : String) : Nat → Nat → List Ev × Option TxResult
  | _, 0 => ([], none)
  | k, f + 1 =>
    match statusAt k with
    | none => ([Ev.api (.getStatus txId)], some .unknown)
    | some s =>
      if s = "CONFIRMED" then ([Ev.api (.getStatus txId)], some .confirmed)
      else if s = "FAILED" then ([Ev.api (.getStatus txId)], some .failed)
      else
        let rest := pollLoop statusAt txId (k + 1) f
        (Ev.api (.getStatus txId) :: Ev.sleep 2000 :: rest.1, rest.2)

/-- One iteration of `processTransactions`'s `for (const tx of
transactions)` body.  `some (.ok r)` is normal completion with outcome
`r`; `some (.error e)` is a thrown signing/submission failure; `none`
means the polling loop did not terminate within `fuel`. -/
def processTx (env : DriverEnv) (tx : Tx) (fuel : Nat) :
    List Ev × Option (Except DriveErr TxResult) :=
  if tx.status = "SKIPPED" then ([], some (.ok .skipped))
  else
    let c := constructLoop (env.constructOk tx.id) tx.id 0 3
    if !c.2 then (c.1, some (.ok .abandoned))
    else if !env.signOk tx.id then (c.1 ++ [Ev.sign tx.id], some (.error (.signFail tx.id)))
    else if !env.submitOk tx.id then
      (c.1 ++ [Ev.sign tx.id, Ev.api (.postSubmit tx.id)], some (.error (.submitFail tx.id)))
    else
      let p := pollLoop (env.statusAt tx.id) tx.id 0 fuel
      match p.2 with
      | none => (c.1 ++ [Ev.sign tx.id, Ev.api (.postSubmit tx.id)] ++ p.1, none)
      | some r => (c.1 ++ [Ev.sign tx.id, Ev.api (.postSubmit tx.id)] ++ p.1, some (.ok r))

/-- `processTransactions`: the batch loop.  An error thrown by a
transaction propagates immediately, before any event of the remaining
transactions. -/
def processTxs (env : DriverEnv) (txs : List Tx) (fuel : Nat) :
    List Ev × Option (Except DriveErr Unit) :=
  match txs with
  | [] => ([], some (.ok ()))
  | tx :: rest =>
    let h := processTx env tx fuel
    match h.2 with
    | none => (h.1, none)
    | some (.error e) => (h.1, some (.error e))
    | some (.ok _) =>
      let t := processTxs env rest fuel
      (h.1 ++ t.1, t.2)

/-! ## Step executor: `runScenarioStep` -/

/-- One entry of a balances response (`{ type, amount }`). -/
structure BalanceEntry where
  type : String
  amount : String
deriving Repr, DecidableEq

/-- Responses the aggregator returns during one step. -/
structure StepEnv where
  posBalances : List BalanceEntry
  detailTokenAddr : Option String
  tokenBalAmounts : List String
  sessionTxs : List Tx
  driver : DriverEnv

inductive StepResult where
  | skippedExit : StepResult
  | skippedEnter : StepResult
  | done : StepResult
deriving Repr, DecidableEq

/-- JavaScript truthiness of the optional string `finalAmount`:
`undefined` and the empty string are falsy. -/
def amountFalsy : Option String → Bool
  | none => true
  | some s => s = ""

/-- Lines 333–342 of the source: create the action session with the
resolved amount, drive the batch, then refresh. -/
def runActionPhase (env : StepEnv) (tp integrationId finalAmount : String) (fuel : Nat)
    (pre : List Ev) : List Ev × Option (Except DriveErr StepResult) :=
  let endpoint := if tp = "ENTER" then "enter" else "exit"
  let evs := pre ++ [Ev.api (.postAction endpoint integrationId finalAmount)]
  let t := processTxs env.driver env.sessionTxs fuel
  match t.2 with
  | none => (evs ++ t.1, none)
  | some (.error e) => (evs ++ t.1, some (.error e))
  | some (.ok _) => (evs ++ t.1 ++ [Ev.refresh], some (.ok .done))

/-- `runScenarioStep`: amount resolution (when the supplied amount is
falsy) followed by the action phase.  Note the source's `if (type ===
"EXIT")` sends every non-`"EXIT"` type through the ENTER resolution
branch. -/
def runScenarioStep (env : StepEnv) (tp integrationId : String) (amount : Option String)
    (fuel : Nat) : List Ev × Option (Except DriveErr StepResult) :=
  if amountFalsy amount then
    if tp = "EXIT" then
      let q := [Ev.api (.postYieldBalances integrationId)]
      match env.posBalances.find? (fun b => b.type = "staked") with
      | none => (q, some (.ok .skippedExit))
      | some staked =>
        if floatLeZero staked.amount then (q, some (.ok .skippedExit))
        else runActionPhase env tp integrationId staked.amount fuel q
    else
      let tokenAddr := env.detailTokenAddr.getD "native"
      let q := [Ev.api (.getYieldDetail integrationId),
                Ev.api (.postTokenBalances (if tokenAddr = "native" then none else some tokenAddr))]
      let bal :=
        match env.tokenBalAmounts.head? with
        | none => "0"
        | some a => if a = "" then "0" else a
      if floatLeZero bal then (q, some (.ok .skippedEnter))
      else runActionPhase env tp integrationId bal fuel q
  else
    runActionPhase env tp integrationId (amount.getD "") fuel []

/-- The step loop of `runAiScenario` (`for (const step of op.steps)`),
with the aggregator's per-step responses indexed by step position. -/
def runSteps (envs : Nat → StepEnv) (fuel : Nat) : Nat → List EarnStep →
    List Ev × Option (Except DriveErr Unit)
  | _, [] => ([], some (.ok ()))
  | i, st :: rest =>
    let h := runScenarioStep (envs i) st.type st.integrationId st.amount fuel
    match h.2 with
    | none => (h.1, none)
    | some (.error e) => (h.1, some (.error e))
    | some (.ok _) =>
      let t := runSteps envs fuel (i + 1) rest
      (h.1 ++ t.1, t.2)

/-- `runAiScenario` after the reasoning-service call: parse the
response text; only a `.ok` outcome executes steps. -/
def runAiScenario (envs : Nat → StepEnv) (aiText : String) (fuel : Nat) :
    List Ev × Option (Except DriveErr Unit) :=
  match parseOpFromCodeBlock aiText with
  | .ok raw => runSteps envs fuel 0 (raw.map jsonToStep)
  | _ => ([], some (.ok ()))

/-! ## Account-state refresh: `refreshEarnAgentData` -/

structure YieldOpportunity where
  id : String
  apy : ℚ
  tokenAddress : Option String
  tokenSymbol : String
  name : String
  cooldownDays : Option Nat
  warmupDays : Option Nat
  withdrawDays : Option Nat
  statusEnter : Bool
  statusExit : Bool
deriving Repr, DecidableEq

structure EarningPosition where
  integrationId : String
  amount : String
deriving Repr, DecidableEq

/-- `filterSortYields`: keep enterable/exitable yields with no
cooldown/warmup/withdraw period, sorted by descending APY (stable, as
the engine's `Array.prototype.sort`). -/
def insertByApy (y : YieldOpportunity) : List YieldOpportunity → List YieldOpportunity
  | [] => [y]
  | z :: zs => if z.apy < y.apy then y :: z :: zs else z :: insertByApy y zs

def sortByApyDesc (l : List YieldOpportunity) : List YieldOpportunity :=
  l.foldr insertByApy []

def yieldEligible (y : YieldOpportunity) : Bool :=
  let noCooldown := y.cooldownDays = none || y.cooldownDays = some 0
  let noWarmup := y.warmupDays = none || y.warmupDays = some 0
  let noWithdraw := y.withdrawDays = none || y.withdrawDays = some 0
  y.statusEnter && y.statusExit && noCooldown && noWarmup && noWithdraw

def filterSortYields (all : List YieldOpportunity) : List YieldOpportunity :=
  sortByApyDesc (all.filter yieldEligible)

/-- One item of a `POST /v1/tokens/balances` response. -/
structure TokenBalanceItem where
  tokenAddress : Option String
  amount : String
deriving Repr, DecidableEq

/-- Aggregator responses consumed by one refresh. -/
structure RefreshEnv where
  allYields : List YieldOpportunity
  positionBalances : String → List BalanceEntry
  tokenBalances : List TokenBalanceItem

def chunksOfGo (n : Nat) : Nat → List α → List (List α)
  | 0, _ => []
  | _ + 1, [] => []
  | f + 1, l@(_ :: _) => l.take n :: chunksOfGo n f (l.drop n)

/-- `for (let i = 0; i < l.length; i += n)` slicing into chunks. -/
def chunksOf (n : Nat) (l : List α) : List (List α) :=
  chunksOfGo n l.length l

/-- `fetchEarningPositions`: batched (≤ 15 ids per call) position
queries; keep only entries whose "staked" balance is positive. -/
def fetchEarningPositions (env : RefreshEnv) (yields : List YieldOpportunity) :
    List EarningPosition :=
  ((chunksOf 15 yields).map (fun chunk =>
    chunk.filterMap (fun y =>
      match (env.positionBalances y.id).find? (fun b => b.type = "staked") with
      | some staked =>
        if floatPos staked.amount then some ⟨y.id, staked.amount⟩ else none
      | none => none))).flatten

def recordSet (rec : List (String × String)) (k v : String) : List (String × String) :=
  if rec.any (fun p => p.1 = k) then rec.map (fun p => if p.1 = k then (k, v) else p)
  else rec ++ [(k, v)]

/-- `fetchUserBalances`: keep only positive balances, keyed "native" or
the lowercased token address. -/
def fetchUserBalances (env : RefreshEnv) : List (String × String) :=
  env.tokenBalances.foldl (fun rec b =>
    if floatPos b.amount then
      match b.tokenAddress with
      | none => recordSet rec "native" b.amount
      | some a => recordSet rec a.toLower b.amount
    else rec) []

/-- The mutable `earnAgentData` snapshot. -/
structure AgentData where
  yields : List YieldOpportunity
  earningPositions : List EarningPosition
  idleTokenBalances : List (String × String)
deriving Repr, DecidableEq

/-- `refreshEarnAgentData`: every field of the snapshot is assigned
from freshly fetched data. -/
def refreshEarnAgentData (env : RefreshEnv) (_old : AgentData) : AgentData :=
  let ys := filterSortYields env.allYields
  { yields := ys
    earningPositions := fetchEarningPositions env ys
    idleTokenBalances := fetchUserBalances env }

/-! ## Busy-flag scheduler gate

`let earnAgentBusy = false` at module load; both the interval callback
(lines 113–127) and the chat-loop body (lines 145–157) have the shape:
check the flag and drop the trigger if set, otherwise set it, run the
refresh-and-decide cycle inside `try`, and clear it in `finally`. -/

inductive SchedEv where
  | checkBusy (b : Bool) : SchedEv
  | dropTrigger : SchedEv
  | setBusy : SchedEv
  | cycle (evs : List Ev) (ok : Bool) : SchedEv
  | clearBusy : SchedEv
deriving Repr, DecidableEq

def initialBusy : Bool := false

/-- The guarded body shared by the interval callback and the chat loop:
`cycleEvs` are the aggregator events the refresh-and-decide cycle would
emit and `cycleOk` whether it completes without throwing.  Returns the
scheduler trace and the flag's final value. -/
def guardedCycle (busy : Bool) (cycleEvs : List Ev) (cycleOk : Bool) :
    List SchedEv × Bool :=
  if busy then ([SchedEv.checkBusy true, SchedEv.dropTrigger], busy)
  else ([SchedEv.checkBusy false, SchedEv.setBusy, SchedEv.cycle cycleEvs cycleOk,
         SchedEv.clearBusy], false)

/-- Aggregator events attributable to a scheduler trace: only those a
run cycle emits. -/
def schedApiCalls : List SchedEv → List Ev
  | [] => []
  | SchedEv.cycle evs _ :: rest => evs ++ schedApiCalls rest
  | _ :: rest => schedApiCalls rest

/-! ## Derived notions used in the statements -/

/-- The polling trace of `k` pending rounds: a status query followed by
the fixed 2000 ms delay, `k` times. -/
def pollPendingTrace (txId : String) : Nat → List Ev
  | 0 => []
  | k + 1 => Ev.api (.getStatus txId) :: Ev.sleep 2000 :: pollPendingTrace txId k

/-- A status response that ends the polling loop: a query error
(`none`) or a `CONFIRMED`/`FAILED` status. -/
def terminalOrErr : Option String → Bool
  | none => true
  | some s => s = "CONFIRMED" || s = "FAILED"

/-- The outcome the polling loop reports for its final response. -/
def pollOutcome : Option String → TxResult
  | none => .unknown
  | some s => if s = "CONFIRMED" then .confirmed else if s = "FAILED" then .failed else .unknown

def isSignOrSubmit : Ev → Bool
  | .sign _ => true
  | .api (.postSubmit _) => true
  | _ => false

/-- The two read queries an ENTER step without an explicit amount
performs: the yield detail, then the idle balance of the resolved
token (no `tokenAddress` field for the native sentinel). -/
def enterQueries (env : StepEnv) (integrationId : String) : List Ev :=
  let tokenAddr := env.detailTokenAddr.getD "native"
  [Ev.api (.getYieldDetail integrationId),
   Ev.api (.postTokenBalances (if tokenAddr = "native" then none else some tokenAddr))]

/-- `balResp[0]?.amount || "0"`. -/
def enterBal (env : StepEnv) : String :=
  match env.tokenBalAmounts.head? with
  | none => "0"
  | some a => if a = "" then "0" else a

end EarnAgent

namespace EarnAgent

/-! # Theorems -/

/-! ## Helper lemmas about the lifecycle driver -/

theorem processTxs_cons (env : DriverEnv) (tx : Tx) (rest : List Tx) (fuel : Nat) :
    processTxs env (tx :: rest) fuel =
      (match (processTx env tx fuel).2 with
       | none => ((processTx env tx fuel).1, none)
       | some (.error e) => ((processTx env tx fuel).1, some (.error e))
       | some (.ok _) =>
         ((processTx env tx fuel).1 ++ (processTxs env rest fuel).1,
          (processTxs env rest fuel).2)) := by
  rfl

theorem processTxs_cons_ok (env : DriverEnv) (tx : Tx) (rest : List Tx) (fuel : Nat)
    (r : TxResult) (evs : List Ev) (h : processTx env tx fuel = (evs, some (.ok r))) :
    processTxs env (tx :: rest) fuel =
      (evs ++ (processTxs env rest fuel).1, (processTxs env rest fuel).2) := by
  simp [processTxs, h]

theorem processTxs_cons_error (env : DriverEnv) (tx : Tx) (rest : List Tx) (fuel : Nat)
    (e : DriveErr) (evs : List Ev) (h : processTx env tx fuel = (evs, some (.error e))) :
    processTxs env (tx :: rest) fuel = (evs, some (.error e)) := by
  simp [processTxs, h]

theorem constructLoop_mem (ok : Nat → Bool) (txId : String) :
    ∀ n i e, e ∈ (constructLoop ok txId i n).1 →
      e = Ev.api (.patchConstruct txId) ∨ e = Ev.sleep 1000 := by
  intro n
  induction n with
  | zero => intro i e h; simp [constructLoop] at h
  | succ m ih =>
    intro i e h
    by_cases hok : ok i
    · simp [constructLoop, hok] at h
      exact Or.inl h
    · simp [constructLoop, hok] at h
      rcases h with h | h | h
      · exact Or.inl h
      · exact Or.inr h
      · exact ih (i + 1) e h

theorem constructLoop_countP (ok : Nat → Bool) (txId : String) :
    ∀ n i, ((constructLoop ok txId i n).1.countP isConstructCall) ≤ n := by
  intro n
  induction n with
  | zero => intro i; simp [constructLoop]
  | succ m ih =>
    intro i
    by_cases hok : ok i
    · simp [constructLoop, hok, List.countP_cons, isConstructCall]
    · simp only [constructLoop, hok, Bool.false_eq_true, if_false, List.countP_cons]
      have := ih (i + 1)
      simp [isConstructCall, isStatusQuery]
      omega

theorem pollLoop_mem (statusAt : Nat → Option String) (txId : String) :
    ∀ fuel k e, e ∈ (pollLoop statusAt txId k fuel).1 →
      e = Ev.api (.getStatus txId) ∨ e = Ev.sleep 2000 := by
  intro fuel
  induction fuel with
  | zero => intro k e h; simp [pollLoop] at h
  | succ m ih =>
    intro k e h
    cases hs : statusAt k with
    | none => simp [pollLoop, hs] at h; exact Or.inl h
    | some s =>
      by_cases hc : s = "CONFIRMED"
      · simp [pollLoop, hs, hc] at h; exact Or.inl h
      · by_cases hf : s = "FAILED"
        · simp [pollLoop, hs, hc, hf] at h; exact Or.inl h
        · simp [pollLoop, hs, hc, hf] at h
          rcases h with h | h | h
          · exact Or.inl h
          · exact Or.inr h
          · exact ih (k + 1) e h

/-- The polling loop, started at index `i`, with the first
terminal-or-error response exactly `k` queries later: it performs
`k` pending rounds then one final query, and reports that response's
outcome. -/
theorem pollLoop_first_terminal (statusAt : Nat → Option String) (txId : String) :
    ∀ k i fuel,
      (∀ j, j < k → ∃ s, statusAt (i + j) = some s ∧ s ≠ "CONFIRMED" ∧ s ≠ "FAILED") →
      terminalOrErr (statusAt (i + k)) = true →
      k < fuel →
      pollLoop statusAt txId i fuel =
        (pollPendingTrace txId k ++ [Ev.api (.getStatus txId)],
         some (pollOutcome (statusAt (i + k)))) := by
  intro k
  induction k with
  | zero =>
    intro i fuel _ hterm hfuel
    obtain ⟨f, rfl⟩ : ∃ f, fuel = f + 1 := ⟨fuel - 1, by omega⟩
    cases hs : statusAt i with
    | none => simp [pollLoop, hs, pollPendingTrace, pollOutcome]
    | some s =>
      rw [Nat.add_zero] at hterm
      rw [hs] at hterm
      simp [terminalOrErr] at hterm
      rcases hterm with hc | hf
      · simp [pollLoop, hs, hc, pollPendingTrace, pollOutcome]
      · by_cases hc2 : s = "CONFIRMED"
        · simp [pollLoop, hs, hc2, pollPendingTrace, pollOutcome]
        · simp [pollLoop, hs, hc2, hf, pollPendingTrace, pollOutcome]
  | succ m ih =>
    intro i fuel hpend hterm hfuel
    obtain ⟨f, rfl⟩ : ∃ f, fuel = f + 1 := ⟨fuel - 1, by omega⟩
    obtain ⟨s, hs, hc, hf⟩ := hpend 0 (by omega)
    rw [Nat.add_zero] at hs
    have hrec := ih (i + 1) f
      (fun j hj => by
        have := hpend (j + 1) (by omega)
        simpa [Nat.add_assoc, Nat.add_comm 1 j] using this)
      (by
        have : i + 1 + m = i + (m + 1) := by omega
        rw [this]; exact hterm)
      (by omega)
    have : i + 1 + m = i + (m + 1) := by omega
    rw [this] at hrec
    simp [pollLoop, hs, hc, hf, hrec, pollPendingTrace]

theorem pollPendingTrace_countP (txId : String) :
    ∀ k, (pollPendingTrace txId k).countP isStatusQuery = k := by
  intro k
  induction k with
  | zero => simp [pollPendingTrace]
  | succ m ih => simp [pollPendingTrace, List.countP_cons, isStatusQuery, ih]

/-! ## C9 — busy-flag mutual exclusion -/

/-- C9: the busy flag starts cleared; a trigger (timer tick or
interactive input) arriving while it is set is dropped with zero
aggregator calls attributable to it; a trigger arriving while it is
clear sets the flag, runs the refresh-and-decide cycle, and clears the
flag in the guaranteed-release block whether the cycle succeeds
(`ok = true`) or throws (`ok = false`). -/
theorem c9_busy_flag_gate :
    initialBusy = false
    ∧ (∀ (cycleEvs : List Ev) (ok : Bool),
        guardedCycle true cycleEvs ok = ([SchedEv.checkBusy true, SchedEv.dropTrigger], true)
        ∧ schedApiCalls (guardedCycle true cycleEvs ok).1 = [])
    ∧ (∀ (cycleEvs : List Ev) (ok : Bool),
        guardedCycle false cycleEvs ok =
          ([SchedEv.checkBusy false, SchedEv.setBusy, SchedEv.cycle cycleEvs ok,
            SchedEv.clearBusy], false)) := by
  refine ⟨rfl, ?_, ?_⟩
  · intro cycleEvs ok
    exact ⟨rfl, rfl⟩
  · intro cycleEvs ok
    rfl

/-! ## C2 — bounded construction retry, abandonment is not fatal -/

/-- C2: construction is attempted at most 3 times with the fixed
1000 ms delay after each failed attempt; when all 3 attempts fail the
transaction is abandoned — no signing and no submission event occurs
for it — and the driver continues with the next transaction in the
batch. -/
theorem c2_construction_retry (env : DriverEnv) (tx : Tx) (rest : List Tx) (fuel : Nat)
    (hns : tx.status ≠ "SKIPPED")
    (h0 : env.constructOk tx.id 0 = false)
    (h1 : env.constructOk tx.id 1 = false)
    (h2 : env.constructOk tx.id 2 = false) :
    processTx env tx fuel =
      ([Ev.api (.patchConstruct tx.id), Ev.sleep 1000,
        Ev.api (.patchConstruct tx.id), Ev.sleep 1000,
        Ev.api (.patchConstruct tx.id), Ev.sleep 1000], some (.ok .abandoned))
    ∧ (processTx env tx fuel).1.countP isSignOrSubmit = 0
    ∧ (∀ (ok : Nat → Bool) (txId : String) (i : Nat),
        ((constructLoop ok txId i 3).1.countP isConstructCall) ≤ 3)
    ∧ processTxs env (tx :: rest) fuel =
        ([Ev.api (.patchConstruct tx.id), Ev.sleep 1000,
          Ev.api (.patchConstruct tx.id), Ev.sleep 1000,
          Ev.api (.patchConstruct tx.id), Ev.sleep 1000] ++ (processTxs env rest fuel).1,
         (processTxs env rest fuel).2) := by
  have hloop : constructLoop (env.constructOk tx.id) tx.id 0 3 =
      ([Ev.api (.patchConstruct tx.id), Ev.sleep 1000,
        Ev.api (.patchConstruct tx.id), Ev.sleep 1000,
        Ev.api (.patchConstruct tx.id), Ev.sleep 1000], false) := by
    simp [constructLoop, h0, h1, h2]
  have hmain : processTx env tx fuel =
      ([Ev.api (.patchConstruct tx.id), Ev.sleep 1000,
        Ev.api (.patchConstruct tx.id), Ev.sleep 1000,
        Ev.api (.patchConstruct tx.id), Ev.sleep 1000], some (.ok .abandoned)) := by
    simp [processTx, hns, hloop]
  refine ⟨hmain, ?_, ?_, ?_⟩
  · rw [hmain]
    simp [List.countP_cons, isSignOrSubmit]
  · intro ok txId i
    exact constructLoop_countP ok txId 3 i
  · exact processTxs_cons_ok env tx rest fuel .abandoned _ hmain

/-- Witness for C2 at a concrete environment where construction always
fails. -/
theorem c2_construction_retry_witness :
    processTx ⟨fun _ _ => false, fun _ => true, fun _ => true, fun _ _ => some "CONFIRMED"⟩
        ⟨"t1", "CREATED", "SWAP"⟩ 1 =
      ([Ev.api (.patchConstruct "t1"), Ev.sleep 1000,
        Ev.api (.patchConstruct "t1"), Ev.sleep 1000,
        Ev.api (.patchConstruct "t1"), Ev.sleep 1000], some (.ok .abandoned)) := by
  exact (c2_construction_retry
    ⟨fun _ _ => false, fun _ => true, fun _ => true, fun _ _ => some "CONFIRMED"⟩
    ⟨"t1", "CREATED", "SWAP"⟩ [] 1 (by decide) rfl rfl rfl).1

/-! ## C3 — signing/submission failure aborts the batch -/

/-- C3: if signing of a transaction fails, no submission is attempted
for it and the error propagates; if submission fails, the error
propagates; in either case the batch driver emits the erroring
transaction's events only — no construction, signing or submission
event of any later transaction in the batch — and returns the error. -/
theorem c3_sign_submit_abort (env : DriverEnv) (tx : Tx) (rest : List Tx) (fuel : Nat)
    (cEvs : List Ev)
    (hns : tx.status ≠ "SKIPPED")
    (hc : constructLoop (env.constructOk tx.id) tx.id 0 3 = (cEvs, true)) :
    (env.signOk tx.id = false →
      processTx env tx fuel = (cEvs ++ [Ev.sign tx.id], some (.error (.signFail tx.id))))
    ∧ (env.signOk tx.id = true → env.submitOk tx.id = false →
      processTx env tx fuel =
        (cEvs ++ [Ev.sign tx.id, Ev.api (.postSubmit tx.id)],
         some (.error (.submitFail tx.id))))
    ∧ (∀ (evs : List Ev) (e : DriveErr), processTx env tx fuel = (evs, some (.error e)) →
        processTxs env (tx :: rest) fuel = (evs, some (.error e))) := by
  refine ⟨?_, ?_, ?_⟩
  · intro hsg
    simp [processTx, hns, hc, hsg]
  · intro hsg hsb
    simp [processTx, hns, hc, hsg, hsb]
  · intro evs e h
    exact processTxs_cons_error env tx rest fuel e evs h

/-- Witness for C3 at a concrete environment where signing fails on the
first transaction while a second transaction is queued. -/
theorem c3_sign_submit_abort_witness :
    processTxs ⟨fun _ _ => true, fun _ => false, fun _ => true, fun _ _ => some "CONFIRMED"⟩
        [⟨"t1", "CREATED", "SWAP"⟩, ⟨"t2", "CREATED", "STAKE"⟩] 1 =
      ([Ev.api (.patchConstruct "t1"), Ev.sign "t1"], some (.error (.signFail "t1"))) := by
  have h := c3_sign_submit_abort
    ⟨fun _ _ => true, fun _ => false, fun _ => true, fun _ _ => some "CONFIRMED"⟩
    ⟨"t1", "CREATED", "SWAP"⟩ [⟨"t2", "CREATED", "STAKE"⟩] 1
    [Ev.api (.patchConstruct "t1")] (by decide) rfl
  exact h.2.2 _ _ (h.1 rfl)

/-! ## C1 — status polling to the first terminal response -/

/-- C1: for a transaction that reaches the submitted state
(construction, signing and submission all succeed), status polling
queries on the fixed 2000 ms interval and stops at the first response
that is `CONFIRMED`, `FAILED`, or a query error: the transaction's
whole processing contains exactly `k + 1` status queries when the first
terminal-or-error response is the `k`-th, so no further status query is
issued afterward; a query error yields the soft `unknown` outcome
(`Except.ok`, not an error) and the batch driver continues with the
next transaction. -/
theorem c1_status_polling (env : DriverEnv) (tx : Tx) (rest : List Tx) (fuel k : Nat)
    (cEvs : List Ev)
    (hns : tx.status ≠ "SKIPPED")
    (hc : constructLoop (env.constructOk tx.id) tx.id 0 3 = (cEvs, true))
    (hsg : env.signOk tx.id = true)
    (hsb : env.submitOk tx.id = true)
    (hpend : ∀ j, j < k →
      ∃ s, env.statusAt tx.id j = some s ∧ s ≠ "CONFIRMED" ∧ s ≠ "FAILED")
    (hterm : terminalOrErr (env.statusAt tx.id k) = true)
    (hfuel : k < fuel) :
    processTx env tx fuel =
      (cEvs ++ [Ev.sign tx.id, Ev.api (.postSubmit tx.id)] ++
        (pollPendingTrace tx.id k ++ [Ev.api (.getStatus tx.id)]),
       some (.ok (pollOutcome (env.statusAt tx.id k))))
    ∧ (processTx env tx fuel).1.countP isStatusQuery = k + 1
    ∧ (env.statusAt tx.id k = none →
        processTxs env (tx :: rest) fuel =
          ((processTx env tx fuel).1 ++ (processTxs env rest fuel).1,
           (processTxs env rest fuel).2)) := by
  have hpoll := pollLoop_first_terminal (env.statusAt tx.id) tx.id k 0 fuel
    (by simpa using hpend) (by simpa using hterm) hfuel
  have hmain : processTx env tx fuel =
      (cEvs ++ [Ev.sign tx.id, Ev.api (.postSubmit tx.id)] ++
        (pollPendingTrace tx.id k ++ [Ev.api (.getStatus tx.id)]),
       some (.ok (pollOutcome (env.statusAt tx.id k)))) := by
    simp only [Nat.zero_add] at hpoll
    simp [processTx, hns, hc, hsg, hsb, hpoll]
  refine ⟨hmain, ?_, ?_⟩
  · rw [hmain]
    have hcEvs : cEvs.countP isStatusQuery = 0 := by
      rw [List.countP_eq_zero]
      intro e he
      have := constructLoop_mem (env.constructOk tx.id) tx.id 3 0 e (by rw [hc]; exact he)
      rcases this with h | h <;> subst h <;> simp [isStatusQuery]
    simp [List.countP_append, hcEvs, pollPendingTrace_countP, List.countP_cons, isStatusQuery]
  · intro _
    rw [processTxs_cons_ok env tx rest fuel (pollOutcome (env.statusAt tx.id k)) _ hmain,
      hmain]

/-- Witness for C1: one pending response, then the status query errors;
the transaction ends `unknown` (a normal, non-error outcome). -/
theorem c1_status_polling_witness :
    processTx
        ⟨fun _ _ => true, fun _ => true, fun _ => true,
         fun _ j => if j = 0 then some "PENDING" else none⟩
        ⟨"t1", "CREATED", "SWAP"⟩ 2 =
      ([Ev.api (.patchConstruct "t1")] ++ [Ev.sign "t1", Ev.api (.postSubmit "t1")] ++
        (pollPendingTrace "t1" 1 ++ [Ev.api (.getStatus "t1")]),
       some (.ok .unknown)) := by
  have h := c1_status_polling
    ⟨fun _ _ => true, fun _ => true, fun _ => true,
     fun _ j => if j = 0 then some "PENDING" else none⟩
    ⟨"t1", "CREATED", "SWAP"⟩ [] 2 1 [Ev.api (.patchConstruct "t1")]
    (by decide) rfl rfl rfl
    (fun j hj => by
      have hj0 : j = 0 := by omega
      subst hj0
      exact ⟨"PENDING", rfl, by decide, by decide⟩)
    rfl (by omega)
  exact h.1

/-! ## Helper lemmas about amount comparison and the action phase -/

theorem floatLeZero_true_of (s : String) (q : ℚ) (h : parseFloat s = some q) (hq : q ≤ 0) :
    floatLeZero s = true := by
  simp [floatLeZero, h, hq]

theorem floatLeZero_false_of (s : String) (q : ℚ) (h : parseFloat s = some q) (hq : 0 < q) :
    floatLeZero s = false := by
  simp [floatLeZero, h]
  exact hq

theorem runActionPhase_trace (env : StepEnv) (tp integrationId finalAmount : String)
    (fuel : Nat) (pre : List Ev) :
    (runActionPhase env tp integrationId finalAmount fuel pre).1 =
      pre ++ [Ev.api (.postAction (if tp = "ENTER" then "enter" else "exit")
                integrationId finalAmount)] ++
        (processTxs env.driver env.sessionTxs fuel).1 ++
        (match (processTxs env.driver env.sessionTxs fuel).2 with
         | some (.ok _) => [Ev.refresh]
         | _ => ([] : List Ev)) := by
  unfold runActionPhase
  rcases h : (processTxs env.driver env.sessionTxs fuel).2 with _ | e
  · simp [h]
  · rcases e with e | r
    · simp [h]
    · simp [h]

/-! ## C4 — EXIT amount resolution -/

/-- C4: an EXIT step without an explicit amount queries the position
balance; if the "staked" entry is absent, or its amount parses to a
non-positive value, the step is skipped normally with the balance query
as its only event (in particular no aggregator write); otherwise the
step executes the action phase with exactly the full staked amount. -/
theorem c4_exit_resolution (env : StepEnv) (integrationId : String) (fuel : Nat) :
    (env.posBalances.find? (fun b => b.type = "staked") = none →
      runScenarioStep env "EXIT" integrationId none fuel =
        ([Ev.api (.postYieldBalances integrationId)], some (.ok .skippedExit)))
    ∧ (∀ (staked : BalanceEntry) (q : ℚ),
        env.posBalances.find? (fun b => b.type = "staked") = some staked →
        parseFloat staked.amount = some q → q ≤ 0 →
        runScenarioStep env "EXIT" integrationId none fuel =
          ([Ev.api (.postYieldBalances integrationId)], some (.ok .skippedExit)))
    ∧ ((runScenarioStep env "EXIT" integrationId none fuel).2 = some (.ok .skippedExit) →
        (runScenarioStep env "EXIT" integrationId none fuel).1.filter isWrite = [])
    ∧ (∀ (staked : BalanceEntry) (q : ℚ),
        env.posBalances.find? (fun b => b.type = "staked") = some staked →
        parseFloat staked.amount = some q → 0 < q →
        runScenarioStep env "EXIT" integrationId none fuel =
          runActionPhase env "EXIT" integrationId staked.amount fuel
            [Ev.api (.postYieldBalances integrationId)]) := by
  refine ⟨?_, ?_, ?_, ?_⟩
  · intro hfind
    simp [runScenarioStep, amountFalsy, hfind]
  · intro staked q hfind hpf hq
    simp [runScenarioStep, amountFalsy, hfind, floatLeZero_true_of staked.amount q hpf hq]
  · intro hskip
    rcases hfind : env.posBalances.find? (fun b => b.type = "staked") with _ | staked
    · simp [runScenarioStep, amountFalsy, hfind, isWrite]
    · by_cases hz : floatLeZero staked.amount
      · simp [runScenarioStep, amountFalsy, hfind, hz, isWrite]
      · exfalso
        rw [show runScenarioStep env "EXIT" integrationId none fuel =
            runActionPhase env "EXIT" integrationId staked.amount fuel
              [Ev.api (.postYieldBalances integrationId)] by
          simp [runScenarioStep, amountFalsy, hfind, hz]] at hskip
        unfold runActionPhase at hskip
        rcases h2 : (processTxs env.driver env.sessionTxs fuel).2 with _ | e
        · simp [h2] at hskip
        · rcases e with e | r
          · simp [h2] at hskip
          · simp [h2] at hskip
  · intro staked q hfind hpf hq
    simp [runScenarioStep, amountFalsy, hfind, floatLeZero_false_of staked.amount q hpf hq]

/-- Witness for C4: a staked balance of "50" resolves to a full
withdrawal of "50"; a staked balance of "0" skips with only the
balance query. -/
theorem c4_exit_resolution_witness :
    runScenarioStep
        ⟨[⟨"staked", "50"⟩], none, [],
         [], ⟨fun _ _ => true, fun _ => true, fun _ => true, fun _ _ => some "CONFIRMED"⟩⟩
        "EXIT" "y1" none 1 =
      runActionPhase
        ⟨[⟨"staked", "50"⟩], none, [],
         [], ⟨fun _ _ => true, fun _ => true, fun _ => true, fun _ _ => some "CONFIRMED"⟩⟩
        "EXIT" "y1" "50" 1 [Ev.api (.postYieldBalances "y1")]
    ∧ runScenarioStep
        ⟨[⟨"staked", "0"⟩], none, [],
         [], ⟨fun _ _ => true, fun _ => true, fun _ => true, fun _ _ => some "CONFIRMED"⟩⟩
        "EXIT" "y1" none 1 =
      ([Ev.api (.postYieldBalances "y1")], some (.ok .skippedExit)) := by
  constructor
  · exact (c4_exit_resolution
      ⟨[⟨"staked", "50"⟩], none, [],
       [], ⟨fun _ _ => true, fun _ => true, fun _ => true, fun _ _ => some "CONFIRMED"⟩⟩
      "y1" 1).2.2.2 ⟨"staked", "50"⟩ 50 rfl (by decide) (by norm_num)
  · exact (c4_exit_resolution
      ⟨[⟨"staked", "0"⟩], none, [],
       [], ⟨fun _ _ => true, fun _ => true, fun _ => true, fun _ _ => some "CONFIRMED"⟩⟩
      "y1" 1).2.1 ⟨"staked", "0"⟩ 0 rfl (by decide) (by norm_num)

/-! ## C5 — ENTER amount resolution -/

/-- C5: an ENTER step without an explicit amount queries the yield
detail and then the idle balance of exactly the resolved token (the
native sentinel, i.e. no token address in the query, when the yield
detail has none); if the balance is not positive the step is skipped
normally with only those two queries (no aggregator write); otherwise
the step executes the action phase with exactly the full idle
balance. -/
theorem c5_enter_resolution (env : StepEnv) (integrationId : String) (fuel : Nat) :
    (env.detailTokenAddr = none →
      enterQueries env integrationId =
        [Ev.api (.getYieldDetail integrationId), Ev.api (.postTokenBalances none)])
    ∧ (∀ a, env.detailTokenAddr = some a → a ≠ "native" →
        enterQueries env integrationId =
          [Ev.api (.getYieldDetail integrationId), Ev.api (.postTokenBalances (some a))])
    ∧ (∀ q : ℚ, parseFloat (enterBal env) = some q → q ≤ 0 →
        runScenarioStep env "ENTER" integrationId none fuel =
          (enterQueries env integrationId, some (.ok .skippedEnter))
        ∧ (runScenarioStep env "ENTER" integrationId none fuel).1.filter isWrite = [])
    ∧ (∀ q : ℚ, parseFloat (enterBal env) = some q → 0 < q →
        runScenarioStep env "ENTER" integrationId none fuel =
          runActionPhase env "ENTER" integrationId (enterBal env) fuel
            (enterQueries env integrationId)) := by
  refine ⟨?_, ?_, ?_, ?_⟩
  · intro h
    simp [enterQueries, h]
  · intro a h hna
    simp [enterQueries, h, hna]
  · intro q hpf hq
    have hz := floatLeZero_true_of (enterBal env) q hpf hq
    have hmain : runScenarioStep env "ENTER" integrationId none fuel =
        (enterQueries env integrationId, some (.ok .skippedEnter)) := by
      simp only [runScenarioStep, amountFalsy, enterQueries, enterBal] at hz ⊢
      simp [hz]
    refine ⟨hmain, ?_⟩
    rw [hmain]
    simp [enterQueries, isWrite]
  · intro q hpf hq
    have hz := floatLeZero_false_of (enterBal env) q hpf hq
    simp only [runScenarioStep, amountFalsy, enterQueries, enterBal] at hz ⊢
    simp [hz]

/-- Witness for C5: no token address on the yield detail resolves to
the native sentinel; an idle balance of "100" resolves to a full
deposit of "100"; an absent balance entry skips with only the two
queries. -/
theorem c5_enter_resolution_witness :
    runScenarioStep
        ⟨[], none, ["100"],
         [], ⟨fun _ _ => true, fun _ => true, fun _ => true, fun _ _ => some "CONFIRMED"⟩⟩
        "ENTER" "y1" none 1 =
      runActionPhase
        ⟨[], none, ["100"],
         [], ⟨fun _ _ => true, fun _ => true, fun _ => true, fun _ _ => some "CONFIRMED"⟩⟩
        "ENTER" "y1" "100" 1
        [Ev.api (.getYieldDetail "y1"), Ev.api (.postTokenBalances none)]
    ∧ runScenarioStep
        ⟨[], none, [],
         [], ⟨fun _ _ => true, fun _ => true, fun _ => true, fun _ _ => some "CONFIRMED"⟩⟩
        "ENTER" "y1" none 1 =
      ([Ev.api (.getYieldDetail "y1"), Ev.api (.postTokenBalances none)],
       some (.ok .skippedEnter)) := by
  constructor
  · have h := (c5_enter_resolution
      ⟨[], none, ["100"],
       [], ⟨fun _ _ => true, fun _ => true, fun _ => true, fun _ _ => some "CONFIRMED"⟩⟩
      "y1" 1).2.2.2 100 (by decide) (by norm_num)
    simpa [enterQueries, enterBal] using h
  · have h := ((c5_enter_resolution
      ⟨[], none, [],
       [], ⟨fun _ _ => true, fun _ => true, fun _ => true, fun _ _ => some "CONFIRMED"⟩⟩
      "y1" 1).2.2.1 0 (by decide) (by norm_num)).1
    simpa [enterQueries, enterBal] using h

/-! ## Trace-classification lemmas for the driver -/

theorem processTx_mem (env : DriverEnv) (tx : Tx) (fuel : Nat) (e : Ev)
    (he : e ∈ (processTx env tx fuel).1) : isBalanceOrDetailQuery e = false := by
  by_cases hsk : tx.status = "SKIPPED"
  · simp [processTx, hsk] at he
  · rcases hcl : constructLoop (env.constructOk tx.id) tx.id 0 3 with ⟨cEvs, ok⟩
    have hcmem : ∀ x ∈ cEvs, isBalanceOrDetailQuery x = false := by
      intro x hx
      rcases constructLoop_mem (env.constructOk tx.id) tx.id 3 0 x
        (by rw [hcl]; exact hx) with h | h <;> subst h <;> rfl
    cases ok with
    | false =>
      simp [processTx, hsk, hcl] at he
      exact hcmem e he
    | true =>
      by_cases hsg : env.signOk tx.id
      · by_cases hsb : env.submitOk tx.id
        · rcases hp : (pollLoop (env.statusAt tx.id) tx.id 0 fuel).2 with _ | r
          · simp [processTx, hsk, hcl, hsg, hsb, hp] at he
            rcases he with he | he | he | he
            · exact hcmem e he
            · subst he; rfl
            · subst he; rfl
            · rcases pollLoop_mem (env.statusAt tx.id) tx.id fuel 0 e he with h | h <;>
                subst h <;> rfl
          · simp [processTx, hsk, hcl, hsg, hsb, hp] at he
            rcases he with he | he | he | he
            · exact hcmem e he
            · subst he; rfl
            · subst he; rfl
            · rcases pollLoop_mem (env.statusAt tx.id) tx.id fuel 0 e he with h | h <;>
                subst h <;> rfl
        · simp [processTx, hsk, hcl, hsg, hsb] at he
          rcases he with he | he | he
          · exact hcmem e he
          · subst he; rfl
          · subst he; rfl
      · simp [processTx, hsk, hcl, hsg] at he
        rcases he with he | he
        · exact hcmem e he
        · subst he; rfl

theorem processTxs_mem (env : DriverEnv) :
    ∀ (txs : List Tx) (fuel : Nat) (e : Ev), e ∈ (processTxs env txs fuel).1 →
      isBalanceOrDetailQuery e = false := by
  intro txs
  induction txs with
  | nil => intro fuel e he; simp [processTxs] at he
  | cons tx rest ih =>
    intro fuel e he
    rcases h2 : (processTx env tx fuel).2 with _ | r
    · simp [processTxs, h2] at he
      exact processTx_mem env tx fuel e he
    · rcases r with r | r
      · simp [processTxs, h2] at he
        exact processTx_mem env tx fuel e he
      · simp [processTxs, h2] at he
        rcases he with he | he
        · exact processTx_mem env tx fuel e he
        · exact ih fuel e he

theorem runActionPhase_mem (env : StepEnv) (tp integrationId finalAmount : String)
    (fuel : Nat) (e : Ev)
    (he : e ∈ (runActionPhase env tp integrationId finalAmount fuel []).1) :
    isBalanceOrDetailQuery e = false := by
  rw [runActionPhase_trace] at he
  simp at he
  rcases he with he | he | he
  · subst he; rfl
  · exact processTxs_mem env.driver env.sessionTxs fuel e he
  · rcases h2 : (processTxs env.driver env.sessionTxs fuel).2 with _ | r
    · simp [h2] at he
    · rcases r with r | r
      · simp [h2] at he
      · simp [h2] at he
        subst he; rfl

/-! ## C10 — explicit caller-supplied amounts (corrected) -/

/-- C10 counterexample: the explicitly supplied amount `""` is falsy in
the source's `if (!finalAmount)` check, so a step carrying the explicit
amount `""` still issues the position-balance query — refuting "for
every step that carries an explicit caller-supplied amount, the
executor issues no balance or yield-detail query at all". -/
theorem c10_explicit_amount_counterexample :
    (runScenarioStep
        ⟨[], none, [],
         [], ⟨fun _ _ => true, fun _ => true, fun _ => true, fun _ _ => some "CONFIRMED"⟩⟩
        "EXIT" "y1" (some "") 1).1 = [Ev.api (.postYieldBalances "y1")]
    ∧ isBalanceOrDetailQuery (Ev.api (.postYieldBalances "y1")) = true := by
  exact ⟨rfl, rfl⟩

/-- C10 (amended): for every step that carries an explicit *non-empty*
caller-supplied amount, the executor issues no balance or yield-detail
query at all for that step, creates the action session first and with
exactly the supplied amount string, and the behaviour is independent of
every balance/detail response — no bounds check against the live staked
or idle balance occurs. -/
theorem c10_explicit_amount (env : StepEnv) (tp integrationId a : String) (fuel : Nat)
    (ha : a ≠ "") :
    runScenarioStep env tp integrationId (some a) fuel =
      runActionPhase env tp integrationId a fuel []
    ∧ (runScenarioStep env tp integrationId (some a) fuel).1.head? =
        some (Ev.api (.postAction (if tp = "ENTER" then "enter" else "exit") integrationId a))
    ∧ (∀ e, e ∈ (runScenarioStep env tp integrationId (some a) fuel).1 →
        isBalanceOrDetailQuery e = false)
    ∧ (∀ env' : StepEnv, env'.driver = env.driver → env'.sessionTxs = env.sessionTxs →
        runScenarioStep env' tp integrationId (some a) fuel =
          runScenarioStep env tp integrationId (some a) fuel) := by
  have hmain : runScenarioStep env tp integrationId (some a) fuel =
      runActionPhase env tp integrationId a fuel [] := by
    simp [runScenarioStep, amountFalsy, ha]
  refine ⟨hmain, ?_, ?_, ?_⟩
  · rw [hmain, runActionPhase_trace]
    rcases h2 : (processTxs env.driver env.sessionTxs fuel).2 with _ | r <;> simp
  · intro e he
    rw [hmain] at he
    exact runActionPhase_mem env tp integrationId a fuel e he
  · intro env' hd hs
    have hmain' : runScenarioStep env' tp integrationId (some a) fuel =
        runActionPhase env' tp integrationId a fuel [] := by
      simp [runScenarioStep, amountFalsy, ha]
    rw [hmain, hmain']
    unfold runActionPhase
    rw [hd, hs]

/-- Witness for C10 (amended): the supplied amount "999" exceeds the
live staked balance "50" and is still used verbatim for the action
session, with no balance query. -/
theorem c10_explicit_amount_witness :
    runScenarioStep
        ⟨[⟨"staked", "50"⟩], none, [],
         [], ⟨fun _ _ => true, fun _ => true, fun _ => true, fun _ _ => some "CONFIRMED"⟩⟩
        "EXIT" "y1" (some "999") 1 =
      runActionPhase
        ⟨[⟨"staked", "50"⟩], none, [],
         [], ⟨fun _ _ => true, fun _ => true, fun _ => true, fun _ _ => some "CONFIRMED"⟩⟩
        "EXIT" "y1" "999" 1 [] := by
  exact (c10_explicit_amount
    ⟨[⟨"staked", "50"⟩], none, [],
     [], ⟨fun _ _ => true, fun _ => true, fun _ => true, fun _ _ => some "CONFIRMED"⟩⟩
    "EXIT" "y1" "999" 1 (by decide)).1

/-! ## C8 — strict sequencing with full refresh between steps -/

theorem runActionPhase_last (env : StepEnv) (tp integrationId finalAmount : String)
    (fuel : Nat) (pre evs : List Ev) (r : StepResult)
    (h : runActionPhase env tp integrationId finalAmount fuel pre = (evs, some (.ok r))) :
    r = .done ∧ evs.getLast? = some Ev.refresh := by
  rcases h2 : (processTxs env.driver env.sessionTxs fuel).2 with _ | r2
  · simp [runActionPhase, h2] at h
  · rcases r2 with e | r2
    · simp [runActionPhase, h2] at h
    · simp [runActionPhase, h2] at h
      obtain ⟨hevs, hr⟩ := h
      refine ⟨hr.symm, ?_⟩
      rw [← hevs]
      simp only [← List.cons_append, ← List.append_assoc]
      rw [List.getLast?_append_of_ne_nil _ (by simp)]
      rfl

theorem runScenarioStep_done_last (env : StepEnv) (tp integrationId : String)
    (amount : Option String) (fuel : Nat) (evs : List Ev)
    (h : runScenarioStep env tp integrationId amount fuel = (evs, some (.ok .done))) :
    evs.getLast? = some Ev.refresh := by
  by_cases hf : amountFalsy amount
  · by_cases hex : tp = "EXIT"
    · rcases hfind : env.posBalances.find? (fun b => b.type = "staked") with _ | staked
      · rw [show runScenarioStep env tp integrationId amount fuel =
            ([Ev.api (.postYieldBalances integrationId)], some (.ok .skippedExit)) by
          simp [runScenarioStep, hf, hex, hfind]] at h
        simp at h
      · by_cases hz : floatLeZero staked.amount
        · rw [show runScenarioStep env tp integrationId amount fuel =
              ([Ev.api (.postYieldBalances integrationId)], some (.ok .skippedExit)) by
            simp [runScenarioStep, hf, hex, hfind, hz]] at h
          simp at h
        · rw [show runScenarioStep env tp integrationId amount fuel =
              runActionPhase env tp integrationId staked.amount fuel
                [Ev.api (.postYieldBalances integrationId)] by
            simp [runScenarioStep, hf, hex, hfind, hz]] at h
          exact (runActionPhase_last _ _ _ _ _ _ _ _ h).2
    · by_cases hz : floatLeZero (enterBal env)
      · rw [show runScenarioStep env tp integrationId amount fuel =
            (enterQueries env integrationId, some (.ok .skippedEnter)) by
          simp only [runScenarioStep, enterQueries, enterBal] at hz ⊢
          simp [hf, hex, hz]] at h
        simp at h
      · rw [show runScenarioStep env tp integrationId amount fuel =
            runActionPhase env tp integrationId (enterBal env) fuel
              (enterQueries env integrationId) by
          simp only [runScenarioStep, enterQueries, enterBal] at hz ⊢
          simp [hf, hex, hz]] at h
        exact (runActionPhase_last _ _ _ _ _ _ _ _ h).2
  · rw [show runScenarioStep env tp integrationId amount fuel =
        runActionPhase env tp integrationId (amount.getD "") fuel [] by
      simp [runScenarioStep, hf]] at h
    exact (runActionPhase_last _ _ _ _ _ _ _ _ h).2

/-- C8: steps execute strictly sequentially in declared order — the
batch loop emits step `i`'s whole trace before any event of the
remaining steps; every executed (non-skipped) step's trace ends with
the account-state refresh, so it precedes the next step's first event;
and the refresh replaces the whole snapshot (yields, positions, idle
balances), independent of the previous snapshot. -/
theorem c8_sequential_refresh (envs : Nat → StepEnv) (fuel i : Nat) (st : EarnStep)
    (rest : List EarnStep) :
    (∀ (evs : List Ev) (r : StepResult),
      runScenarioStep (envs i) st.type st.integrationId st.amount fuel = (evs, some (.ok r)) →
      runSteps envs fuel i (st :: rest) =
        (evs ++ (runSteps envs fuel (i + 1) rest).1, (runSteps envs fuel (i + 1) rest).2))
    ∧ (∀ evs : List Ev,
        runScenarioStep (envs i) st.type st.integrationId st.amount fuel =
          (evs, some (.ok .done)) →
        evs.getLast? = some Ev.refresh)
    ∧ (∀ (renv : RefreshEnv) (old old' : AgentData),
        refreshEarnAgentData renv old = refreshEarnAgentData renv old') := by
  refine ⟨?_, ?_, ?_⟩
  · intro evs r h
    simp [runSteps, h]
  · intro evs h
    exact runScenarioStep_done_last (envs i) st.type st.integrationId st.amount fuel evs h
  · intro renv old old'
    rfl

/-- Witness for C8: a one-step operation with an explicit amount; the
step's trace ends with the refresh and the loop appends the (empty)
remainder after it. -/
theorem c8_sequential_refresh_witness :
    runSteps
        (fun _ =>
          ⟨[], none, [],
           [], ⟨fun _ _ => true, fun _ => true, fun _ => true, fun _ _ => some "CONFIRMED"⟩⟩)
        1 0 [⟨"EXIT", "y1", some "5"⟩] =
      ([Ev.api (.postAction "exit" "y1" "5"), Ev.refresh] ++
        (runSteps
          (fun _ =>
            ⟨[], none, [],
             [], ⟨fun _ _ => true, fun _ => true, fun _ => true, fun _ _ => some "CONFIRMED"⟩⟩)
          1 1 []).1,
       (runSteps
          (fun _ =>
            ⟨[], none, [],
             [], ⟨fun _ _ => true, fun _ => true, fun _ => true, fun _ _ => some "CONFIRMED"⟩⟩)
          1 1 []).2)
    ∧ ([Ev.api (.postAction "exit" "y1" "5"), Ev.refresh] : List Ev).getLast? =
        some Ev.refresh := by
  constructor
  · exact (c8_sequential_refresh
      (fun _ =>
        ⟨[], none, [],
         [], ⟨fun _ _ => true, fun _ => true, fun _ => true, fun _ _ => some "CONFIRMED"⟩⟩)
      1 0 ⟨"EXIT", "y1", some "5"⟩ []).1
      [Ev.api (.postAction "exit" "y1" "5"), Ev.refresh] .done rfl
  · exact (c8_sequential_refresh
      (fun _ =>
        ⟨[], none, [],
         [], ⟨fun _ _ => true, fun _ => true, fun _ => true, fun _ _ => some "CONFIRMED"⟩⟩)
      1 0 ⟨"EXIT", "y1", some "5"⟩ []).2.1
      [Ev.api (.postAction "exit" "y1" "5"), Ev.refresh] rfl

/-! ## C6 — intake validation -/

theorem jsGetField_keys (v : JSON) (x : JSON) (h : jsGetField v "steps" = some x) :
    ∃ n, jsKeysLength v = some (n + 1) := by
  cases v with
  | obj fs =>
    cases fs with
    | nil => simp [jsGetField, List.find?] at h
    | cons p ps => exact ⟨ps.length, rfl⟩
  | null => simp [jsGetField] at h
  | bool b => simp [jsGetField] at h
  | num t => simp [jsGetField] at h
  | str s => simp [jsGetField] at h
  | arr l => simp [jsGetField] at h

/-- C6: intake of a candidate operation — a fenced block holding an
empty object is the distinct no-action signal (not the parse-failure
path) and executes nothing; a parse failure is discarded and executes
nothing; a parsed value that lacks a `steps` array is discarded and
executes nothing; and an object with a `steps` array is accepted and
handed to the strictly sequential step loop. -/
theorem c6_intake_validation (aiText block : String) :
    (extractJsonBlock aiText = some block → jsonParse (strTrim block) = some (.obj []) →
      parseOpFromCodeBlock aiText = .emptyObject)
    ∧ (extractJsonBlock aiText = some block → jsonParse (strTrim block) = none →
      parseOpFromCodeBlock aiText = .parseError)
    ∧ (ParseOutcome.emptyObject ≠ ParseOutcome.parseError
       ∧ ParseOutcome.emptyObject ≠ ParseOutcome.missingSteps)
    ∧ (∀ v : JSON, extractJsonBlock aiText = some block →
        jsonParse (strTrim block) = some v →
        (∀ l, jsGetField v "steps" ≠ some (.arr l)) →
        jsKeysLength v ≠ some 0 → jsKeysLength v ≠ none →
        parseOpFromCodeBlock aiText = .missingSteps)
    ∧ (∀ (v : JSON) (l : List JSON), extractJsonBlock aiText = some block →
        jsonParse (strTrim block) = some v →
        jsGetField v "steps" = some (.arr l) →
        parseOpFromCodeBlock aiText = .ok l
        ∧ ∀ (envs : Nat → StepEnv) (fuel : Nat),
            runAiScenario envs aiText fuel = runSteps envs fuel 0 (l.map jsonToStep))
    ∧ (∀ (envs : Nat → StepEnv) (fuel : Nat) (o : ParseOutcome),
        parseOpFromCodeBlock aiText = o → (∀ l, o ≠ .ok l) →
        runAiScenario envs aiText fuel = ([], some (.ok ()))) := by
  refine ⟨?_, ?_, ⟨fun h => ParseOutcome.noConfusion h, fun h => ParseOutcome.noConfusion h⟩,
    ?_, ?_, ?_⟩
  · intro hext hparse
    simp [parseOpFromCodeBlock, hext, parseBlock, hparse, jsKeysLength]
  · intro hext hparse
    simp [parseOpFromCodeBlock, hext, parseBlock, hparse]
  · intro v hext hparse hnsteps hk0 hknone
    have hpb : parseBlock block = .missingSteps := by
      unfold parseBlock
      rw [hparse]
      rcases hk : jsKeysLength v with _ | n
      · exact absurd hk hknone
      · rcases n with _ | m
        · exact absurd hk hk0
        · rcases hg : jsGetField v "steps" with _ | w
          · simp [hk]
          · rcases w with _ | b | t | s | l | fs
            · simp [hk]
            · simp [hk]
            · simp [hk]
            · simp [hk]
            · exact absurd hg (hnsteps l)
            · simp [hk]
    simp [parseOpFromCodeBlock, hext, hpb]
  · intro v l hext hparse hget
    obtain ⟨n, hk⟩ := jsGetField_keys v (.arr l) hget
    have hpo : parseOpFromCodeBlock aiText = .ok l := by
      simp [parseOpFromCodeBlock, hext, parseBlock, hparse, hk, hget]
    exact ⟨hpo, fun envs fuel => by simp [runAiScenario, hpo]⟩
  · intro envs fuel o hpo hno
    unfold runAiScenario
    rw [hpo]
    cases o with
    | ok l => exact absurd rfl (hno l)
    | noBlock => rfl
    | parseError => rfl
    | emptyObject => rfl
    | missingSteps => rfl

/-- Witness for C6: an empty-object block is the no-action signal with
zero events; an object with a `steps` array is accepted and run; a
block failing structural parsing is the parse-failure signal with zero
events. -/
theorem c6_intake_validation_witness :
    parseOpFromCodeBlock "x ```json \x7b\x7d ```" = .emptyObject
    ∧ runAiScenario (fun _ =>
        ⟨[], none, [],
         [], ⟨fun _ _ => true, fun _ => true, fun _ => true, fun _ _ => some "CONFIRMED"⟩⟩)
        "x ```json \x7b\x7d ```" 1 = ([], some (.ok ()))
    ∧ parseOpFromCodeBlock "x ```json \x7bbad ```" = .parseError
    ∧ parseOpFromCodeBlock
        "a ```json \x7b\"steps\": [\x7b\"type\": \"EXIT\", \"integrationId\": \"y9\"\x7d]\x7d ```" =
      .ok [JSON.obj [("type", JSON.str "EXIT"), ("integrationId", JSON.str "y9")]] := by
  refine ⟨?_, ?_, ?_, ?_⟩
  · exact (c6_intake_validation "x ```json \x7b\x7d ```" " \x7b\x7d ").1 rfl rfl
  · exact (c6_intake_validation "x ```json \x7b\x7d ```" " \x7b\x7d ").2.2.2.2.2
      (fun _ =>
        ⟨[], none, [],
         [], ⟨fun _ _ => true, fun _ => true, fun _ => true, fun _ _ => some "CONFIRMED"⟩⟩)
      1 .emptyObject ((c6_intake_validation "x ```json \x7b\x7d ```" " \x7b\x7d ").1 rfl rfl)
      (fun l h => ParseOutcome.noConfusion h)
  · exact (c6_intake_validation "x ```json \x7bbad ```" " \x7bbad ").2.1 rfl rfl
  · exact ((c6_intake_validation
      "a ```json \x7b\"steps\": [\x7b\"type\": \"EXIT\", \"integrationId\": \"y9\"\x7d]\x7d ```"
      " \x7b\"steps\": [\x7b\"type\": \"EXIT\", \"integrationId\": \"y9\"\x7d]\x7d ").2.2.2.2.1
      (JSON.obj [("steps",
        JSON.arr [JSON.obj [("type", JSON.str "EXIT"), ("integrationId", JSON.str "y9")]])])
      [JSON.obj [("type", JSON.str "EXIT"), ("integrationId", JSON.str "y9")]]
      rfl rfl rfl).1

/-! ## C7 — text after the fenced block (corrected) -/

/-- C7 counterexample: a response whose fenced block is followed by
non-empty trailing text still executes its steps — the step's action
session (an aggregator write) is created — refuting "any text after
that block yields no action (no steps execute and no aggregator writes
occur)". -/
theorem c7_trailing_text_counterexample :
    extractBlockAndRest
        "```json \x7b\"steps\": [\x7b\"type\": \"EXIT\", \"integrationId\": \"y1\", \"amount\": \"5\"\x7d]\x7d ``` trailing text" =
      some (" \x7b\"steps\": [\x7b\"type\": \"EXIT\", \"integrationId\": \"y1\", \"amount\": \"5\"\x7d]\x7d ",
        " trailing text")
    ∧ strTrim " trailing text" ≠ ""
    ∧ (runAiScenario (fun _ =>
        ⟨[], none, [],
         [], ⟨fun _ _ => true, fun _ => true, fun _ => true, fun _ _ => some "CONFIRMED"⟩⟩)
        "```json \x7b\"steps\": [\x7b\"type\": \"EXIT\", \"integrationId\": \"y1\", \"amount\": \"5\"\x7d]\x7d ``` trailing text"
        1).1 = [Ev.api (.postAction "exit" "y1" "5"), Ev.refresh]
    ∧ isWrite (Ev.api (.postAction "exit" "y1" "5")) = true := by
  exact ⟨rfl, by decide, rfl, rfl⟩

/-- C7 (amended): if the response text contains no fenced block the
invocation yields no action — zero events, a normal (non-error) return;
when a fenced block is present, the intake outcome depends only on the
block's body: trailing text after the closing fence is ignored rather
than suppressing execution. -/
theorem c7_no_block_or_trailing (aiText : String) :
    (extractJsonBlock aiText = none →
      parseOpFromCodeBlock aiText = .noBlock
      ∧ ∀ (envs : Nat → StepEnv) (fuel : Nat),
          runAiScenario envs aiText fuel = ([], some (.ok ())))
    ∧ (∀ (block rest : String), extractBlockAndRest aiText = some (block, rest) →
        parseOpFromCodeBlock aiText = parseBlock block) := by
  constructor
  · intro hext
    have hpo : parseOpFromCodeBlock aiText = .noBlock := by
      simp [parseOpFromCodeBlock, hext]
    exact ⟨hpo, fun envs fuel => by simp [runAiScenario, hpo]⟩
  · intro block rest hext
    simp [parseOpFromCodeBlock, extractJsonBlock, hext]

/-- Witness for C7 (amended): a response with no fenced block yields the
no-block outcome and zero events. -/
theorem c7_no_block_or_trailing_witness :
    parseOpFromCodeBlock "just prose, no data block" = .noBlock
    ∧ runAiScenario (fun _ =>
        ⟨[], none, [],
         [], ⟨fun _ _ => true, fun _ => true, fun _ => true, fun _ _ => some "CONFIRMED"⟩⟩)
        "just prose, no data block" 1 = ([], some (.ok ())) := by
  have h := (c7_no_block_or_trailing "just prose, no data block").1 rfl
  exact ⟨h.1, h.2
    (fun _ =>
      ⟨[], none, [],
       [], ⟨fun _ _ => true, fun _ => true, fun _ => true, fun _ _ => some "CONFIRMED"⟩⟩)
    1⟩

end EarnAgent
